import Mathlib

/-!
Verification development for the resume-analysis pipeline.

This file gives a shallow embedding of the core of the repository:
`utils/report_parser.py` (the dual-format report parser), `utils/barem_generator.py`
(rubric generation with its retry loop), and the batch orchestration in `main.py`
(`analyze_multiple_resumes`), together with theorems settling the specification
claims about them.

Modelling conventions:
- Python values decoded from JSON are the inductive `Json`; Python dicts are
  `JsonObj` (association lists keeping insertion order, as Python dicts do).
- Python numbers are modelled as `Rat` built with `mkRat`; the decimal literals
  appearing in the claims (7.5, 999, ...) are exactly representable both as
  Python floats and as rationals, so no rounding questions arise.
- Fallible Python code is embedded in `Except PyErr`; a `try/except` block is a
  `match` on the embedded result.  Exception messages keep the shape of the
  CPython/stdlib messages where a theorem observes them (only ever through a
  `String.startsWith "Error parsing report:"` check), and are otherwise
  abstracted (no apostrophes, no line/column positions).
- The file system, the Gemini generation service and the per-candidate CrewAI
  evaluator are external effects; they enter as explicit parameters
  (`String → FileRead`, `Nat → GenOutcome`, an evaluation function), which is
  the standard shallow embedding of an effectful boundary.
-/

/-- Literal opening brace character, written via its code point so that no brace
appears in a string literal. -/
def lbrace : Char := Char.ofNat 123

/-- Literal closing brace character. -/
def rbrace : Char := Char.ofNat 125

mutual
/-- Values produced by Python `json.loads` (and, more generally, the values the
parsed report dictionaries can hold). -/
inductive Json where
  | null : Json
  | bool (b : Bool) : Json
  | num (q : Rat) : Json
  | str (s : String) : Json
  | arr (elems : JsonList) : Json
  | obj (kvs : JsonObj) : Json
deriving DecidableEq

/-- A JSON array payload. -/
inductive JsonList where
  | nil : JsonList
  | cons (hd : Json) (tl : JsonList) : JsonList
deriving DecidableEq

/-- A Python dict with string keys in insertion order (Python 3.7+ dicts keep
insertion order, which the report records rely on). -/
inductive JsonObj where
  | nil : JsonObj
  | cons (key : String) (val : Json) (tl : JsonObj) : JsonObj
deriving DecidableEq
end

/-- Build a `JsonObj` from a Lean list of key/value pairs (keys assumed fresh,
as in a Python dict literal). -/
def jobj : List (String × Json) → JsonObj
  | [] => .nil
  | (k, v) :: rest => .cons k v (jobj rest)

/-- Build a `JsonList` from a Lean list. -/
def jarr : List Json → JsonList
  | [] => .nil
  | v :: rest => .cons v (jarr rest)

/-- Convert a `JsonList` back to a Lean list. -/
def JsonList.toList : JsonList → List Json
  | .nil => []
  | .cons v rest => v :: rest.toList

/-- Keys of a dict, in insertion order (what `for k in d` iterates). -/
def JsonObj.keysList : JsonObj → List String
  | .nil => []
  | .cons k _ rest => k :: rest.keysList

/-- Python `d.get(key, dflt)`. -/
def dictGet : JsonObj → String → Json → Json
  | .nil, _, dflt => dflt
  | .cons k v rest, key, dflt => if k == key then v else dictGet rest key dflt

/-- Python `d[key] = val`: replaces in place when the key exists (keeping its
position), appends otherwise. -/
def dictSet : JsonObj → String → Json → JsonObj
  | .nil, key, val => .cons key val .nil
  | .cons k v rest, key, val =>
      if k == key then .cons k val rest else .cons k v (dictSet rest key val)

/-- Python `d.update(other)`: sets every key of `other` in order. -/
def dictUpdate (d : JsonObj) : JsonObj → JsonObj
  | .nil => d
  | .cons k v rest => dictUpdate (dictSet d k v) rest

/-- Python truthiness of a decoded-JSON value (`if x:`). -/
def truthy : Json → Bool
  | .null => false
  | .bool b => b
  | .num q => q != 0
  | .str s => !s.isEmpty
  | .arr .nil => false
  | .arr _ => true
  | .obj .nil => false
  | .obj _ => true

/-- Python type name of a decoded-JSON value, used in exception messages.
Python distinguishes int and float; both are abstracted to one numeric type
here (no theorem observes the name of a numeric type). -/
def pyTypeName : Json → String
  | .null => "NoneType"
  | .bool _ => "bool"
  | .num _ => "float"
  | .str _ => "str"
  | .arr _ => "list"
  | .obj _ => "dict"

/-- Python exceptions distinguished by the embedded code.  Only
`json.JSONDecodeError` is ever caught selectively (in `parse_report`); every
other kind only meets blanket `except Exception` handlers. -/
inductive PyErr where
  | jsonDecodeError (msg : String) : PyErr
  | attributeError (msg : String) : PyErr
  | typeError (msg : String) : PyErr
  | otherError (msg : String) : PyErr
deriving DecidableEq

/-- Python `str(e)` on an exception: the message. -/
def pyErrMsg : PyErr → String
  | .jsonDecodeError m => m
  | .attributeError m => m
  | .typeError m => m
  | .otherError m => m

/-- Whitespace characters skipped by the JSON grammar (space, tab, newline,
carriage return - exactly the four of RFC 8259 / CPython json). -/
def jsonWs (c : Char) : Bool :=
  c == ' ' || c == '\t' || c == '\n' || c == '\r'

/-- Value of a hexadecimal digit, for string escapes. -/
def hexVal (c : Char) : Option Nat :=
  if c.isDigit then some (c.toNat - 48)
  else if 'a' ≤ c && c ≤ 'f' then some (c.toNat - 87)
  else if 'A' ≤ c && c ≤ 'F' then some (c.toNat - 55)
  else none

/-- Digits of a numeral read as a natural number. -/
def digitsToNat (l : List Char) : Nat :=
  l.foldl (fun n c => n * 10 + (c.toNat - 48)) 0

/-- Parse the body of a JSON string after the opening quote; returns the
decoded characters and the input after the closing quote.  Surrogate-pair
combining for `\uXXXX` escapes is abstracted (each escape becomes one code
point); no theorem exercises escapes. -/
def parseJsonStringBody : Nat → List Char → Except PyErr (List Char × List Char)
  | 0, _ => .error (.otherError "maximum recursion depth exceeded")
  | _, [] => .error (.jsonDecodeError "Unterminated string")
  | fuel + 1, c :: rest =>
    if c == '"' then .ok ([], rest)
    else if c == '\\' then
      match rest with
      | [] => .error (.jsonDecodeError "Unterminated string")
      | e :: rest2 =>
        let cont := fun (ch : Char) (r : List Char) =>
          (parseJsonStringBody fuel r).map (fun pr => (ch :: pr.1, pr.2))
        if e == '"' then cont '"' rest2
        else if e == '\\' then cont '\\' rest2
        else if e == '/' then cont '/' rest2
        else if e == 'b' then cont '\x08' rest2
        else if e == 'f' then cont '\x0c' rest2
        else if e == 'n' then cont '\n' rest2
        else if e == 'r' then cont '\r' rest2
        else if e == 't' then cont '\t' rest2
        else if e == 'u' then
          match rest2 with
          | h1 :: h2 :: h3 :: h4 :: rest3 =>
            match hexVal h1, hexVal h2, hexVal h3, hexVal h4 with
            | some a, some b, some cc, some d =>
              let code := ((a * 16 + b) * 16 + cc) * 16 + d
              if h : code.isValidChar then cont (Char.ofNatAux code h) rest3
              else cont ' ' rest3
            | _, _, _, _ => .error (.jsonDecodeError "Invalid uXXXX escape")
          | _ => .error (.jsonDecodeError "Invalid uXXXX escape")
        else .error (.jsonDecodeError "Invalid escape")
    else if c.toNat < 32 then .error (.jsonDecodeError "Invalid control character")
    else (parseJsonStringBody fuel rest).map (fun pr => (c :: pr.1, pr.2))

/-- Parse a JSON number per the RFC 8259 grammar CPython uses:
`-?(0|[1-9][0-9]*)(\.[0-9]+)?([eE][+-]?[0-9]+)?`, longest match, leaving the
rest of the input untouched.  The value is built exactly as a rational (CPython
converts to binary float; every value any theorem observes is exactly
representable in both). -/
def parseJsonNumber (l : List Char) : Except PyErr (Json × List Char) :=
  let (neg, l1) := match l with
    | '-' :: r => (true, r)
    | _ => (false, l)
  match l1 with
  | [] => .error (.jsonDecodeError "Expecting value")
  | d :: _ =>
    if !d.isDigit then .error (.jsonDecodeError "Expecting value")
    else
      let (ip, l2) :=
        if d == '0' then ([d], l1.drop 1)
        else (l1.takeWhile Char.isDigit, l1.dropWhile Char.isDigit)
      let (fp, l3) := match l2 with
        | '.' :: r =>
          let fr := r.takeWhile Char.isDigit
          if fr.isEmpty then (([] : List Char), l2)
          else (fr, r.dropWhile Char.isDigit)
        | _ => (([] : List Char), l2)
      let (ex, l4) := match l3 with
        | e :: r =>
          if e == 'e' || e == 'E' then
            let (esign, r1) := match r with
              | '+' :: rr => ((1 : Int), rr)
              | '-' :: rr => ((-1 : Int), rr)
              | _ => ((1 : Int), r)
            let ed := r1.takeWhile Char.isDigit
            if ed.isEmpty then ((0 : Int), l3)
            else (esign * (digitsToNat ed : Int), r1.dropWhile Char.isDigit)
          else ((0 : Int), l3)
        | [] => ((0 : Int), l3)
      let mantNat : Nat := digitsToNat (ip ++ fp)
      let mant : Int := if neg then -(mantNat : Int) else (mantNat : Int)
      let e10 : Int := ex - (fp.length : Int)
      let q : Rat :=
        if 0 ≤ e10 then mkRat (mant * (10 : Int) ^ e10.toNat) 1
        else mkRat mant ((10 : Nat) ^ (-e10).toNat)
      .ok (.num q, l4)

mutual
/-- Parse one JSON value.  `fuel` bounds recursion depth (a fuel shortfall is
the model of the CPython `RecursionError`, which is not a `JSONDecodeError`; with
the fuel supplied by `jsonLoads` it is unreachable).  `NaN`/`Infinity`, which
CPython accepts as an extension, are not modelled. -/
def parseJsonValue : Nat → List Char → Except PyErr (Json × List Char)
  | 0, _ => .error (.otherError "maximum recursion depth exceeded")
  | fuel + 1, l =>
    match l with
    | [] => .error (.jsonDecodeError "Expecting value")
    | c :: rest =>
      if c == 'n' then
        if ['u', 'l', 'l'].isPrefixOf rest then .ok (.null, rest.drop 3)
        else .error (.jsonDecodeError "Expecting value")
      else if c == 't' then
        if ['r', 'u', 'e'].isPrefixOf rest then .ok (.bool true, rest.drop 3)
        else .error (.jsonDecodeError "Expecting value")
      else if c == 'f' then
        if ['a', 'l', 's', 'e'].isPrefixOf rest then .ok (.bool false, rest.drop 4)
        else .error (.jsonDecodeError "Expecting value")
      else if c == '"' then
        (parseJsonStringBody (fuel + 1) rest).map (fun pr => (.str (String.mk pr.1), pr.2))
      else if c == '[' then
        match rest.dropWhile jsonWs with
        | ']' :: r => .ok (.arr .nil, r)
        | r1 =>
          match parseJsonValue fuel r1 with
          | .error e => .error e
          | .ok (v, r2) => parseJsonArrayTail fuel r2 [v]
      else if c == lbrace then
        match rest.dropWhile jsonWs with
        | r1 =>
          if r1.head? == some rbrace then .ok (.obj .nil, r1.drop 1)
          else parseJsonObjPair fuel r1 .nil
      else if c == '-' || c.isDigit then parseJsonNumber l
      else .error (.jsonDecodeError "Expecting value")

/-- Parse the continuation of a JSON array after at least one element
(`acc` holds the elements parsed so far, in reverse). -/
def parseJsonArrayTail : Nat → List Char → List Json → Except PyErr (Json × List Char)
  | 0, _, _ => .error (.otherError "maximum recursion depth exceeded")
  | fuel + 1, l, acc =>
    match l.dropWhile jsonWs with
    | ']' :: r => .ok (.arr (jarr acc.reverse), r)
    | ',' :: r =>
      match parseJsonValue fuel (r.dropWhile jsonWs) with
      | .error e => .error e
      | .ok (v, r2) => parseJsonArrayTail fuel r2 (v :: acc)
    | _ => .error (.jsonDecodeError "Expecting comma delimiter")

/-- Parse one `"key": value` member of a JSON object and continue.  `acc` is
the object so far; duplicate keys overwrite in place, as Python dict insertion
does. -/
def parseJsonObjPair : Nat → List Char → JsonObj → Except PyErr (Json × List Char)
  | 0, _, _ => .error (.otherError "maximum recursion depth exceeded")
  | fuel + 1, l, acc =>
    match l with
    | '"' :: r =>
      match parseJsonStringBody (fuel + 1) r with
      | .error e => .error e
      | .ok (key, r1) =>
        match r1.dropWhile jsonWs with
        | ':' :: r2 =>
          match parseJsonValue fuel (r2.dropWhile jsonWs) with
          | .error e => .error e
          | .ok (v, r3) =>
            let acc2 := dictSet acc (String.mk key) v
            match r3.dropWhile jsonWs with
            | r4 =>
              if r4.head? == some rbrace then .ok (.obj acc2, r4.drop 1)
              else
                match r4 with
                | ',' :: r5 => parseJsonObjPair fuel (r5.dropWhile jsonWs) acc2
                | _ => .error (.jsonDecodeError "Expecting comma delimiter")
        | _ => .error (.jsonDecodeError "Expecting colon delimiter")
    | _ => .error (.jsonDecodeError "Expecting property name enclosed in double quotes")
end

deriving instance DecidableEq for Except

/-- Python `json.loads`: parse one value, then require only whitespace to
follow (otherwise `Extra data`). -/
def jsonLoads (s : String) : Except PyErr Json :=
  match parseJsonValue (s.data.length + 2) (s.data.dropWhile jsonWs) with
  | .error e => .error e
  | .ok (v, rest) =>
    match rest.dropWhile jsonWs with
    | [] => .ok v
    | _ => .error (.jsonDecodeError "Extra data")

mutual
/-- Serialization back to text, the model of `json.dumps(json_data, indent=2)`
in `_parse_json_report` (the exact rendering - indentation, escaping - is
abstracted; no theorem observes the serialized text). -/
def jsonDumps : Json → String
  | .null => "null"
  | .bool true => "true"
  | .bool false => "false"
  | .num q => toString q
  | .str s => "\"" ++ s ++ "\""
  | .arr xs => "[" ++ jsonDumpsArr xs ++ "]"
  | .obj kvs => "\x7b" ++ jsonDumpsObj kvs ++ "\x7d"

/-- Serialize array elements. -/
def jsonDumpsArr : JsonList → String
  | .nil => ""
  | .cons x .nil => jsonDumps x
  | .cons x (.cons y xs) => jsonDumps x ++ ", " ++ jsonDumpsArr (.cons y xs)

/-- Serialize object members. -/
def jsonDumpsObj : JsonObj → String
  | .nil => ""
  | .cons k v .nil => "\"" ++ k ++ "\": " ++ jsonDumps v
  | .cons k v (.cons k2 v2 kvs) =>
      "\"" ++ k ++ "\": " ++ jsonDumps v ++ ", " ++ jsonDumpsObj (.cons k2 v2 kvs)
end

/-- Python `str(x)` on a decoded-JSON value (numeric and container rendering
abstracted; no theorem observes it). -/
def pyStr : Json → String
  | .str s => s
  | .bool true => "True"
  | .bool false => "False"
  | .null => "None"
  | .num q => toString q
  | v => jsonDumps v

/-!
Embedding of `utils/report_parser.py` (class `ReportParser`).
-/

/-- Characters matched by the regex class `\s` (ASCII range; `re` on `str`
also matches some further Unicode spaces, which no report content here uses). -/
def isPySpace (c : Char) : Bool :=
  c == ' ' || c == '\t' || c == '\n' || c == '\r' || c == '\x0b' || c == '\x0c'

/-- Characters matched by the class `[\d\.]` (ASCII digits; the script-digit
extension of `\d` is not modelled). -/
def isDigitDot (c : Char) : Bool := c.isDigit || c == '.'

/-- Case-insensitive character comparison, the model of `re.IGNORECASE` on
these ASCII patterns. -/
def charCI (a b : Char) : Bool := a.toLower == b.toLower

/-- Match a literal case-insensitively at the head of the input, returning the
rest. -/
def matchLitCI : List Char → List Char → Option (List Char)
  | [], l => some l
  | _ :: _, [] => none
  | p :: ps, c :: cs => if charCI p c then matchLitCI ps cs else none

/-- Match a literal case-sensitively at the head of the input, returning the
rest. -/
def matchLit : List Char → List Char → Option (List Char)
  | [], l => some l
  | _ :: _, [] => none
  | p :: ps, c :: cs => if p == c then matchLit ps cs else none

/-- Try the alternatives of a regex alternation at this position, in pattern
order (the alternatives used below are mutually exclusive at any one
position). -/
def matchFirstLit (lits : List (List Char)) (l : List Char) : Option (List Char) :=
  match lits with
  | [] => none
  | p :: ps =>
    match matchLitCI p l with
    | some rest => some rest
    | none => matchFirstLit ps l

/-- Scan left to right for the first position where `tryAt` matches: the model
of `re.search` (the first match in the string wins).  Each `tryAt` below is
deterministic at a position, matching the backtracking behaviour of its regex
(justified at its definition). -/
def scanFirst (tryAt : List Char → Option (List Char)) : List Char → Option (List Char)
  | [] => tryAt []
  | c :: rest =>
    match tryAt (c :: rest) with
    | some r => some r
    | none => scanFirst tryAt rest

/-- Model of the regex fragment `\s*([\d\.]+)\s*/\s*10` at a position: skip
whitespace, capture a maximal nonempty run of `[\d\.]`, then require `/` and
`10` around optional whitespace.  Greedy capture needs no backtracking: the
character after the run is not in `[\d\.]`, and shrinking the run leaves a
`[\d\.]` character where `\s*/` must match, which is impossible. -/
def numThenSlashTen (l : List Char) : Option (List Char) :=
  let l1 := l.dropWhile isPySpace
  let run := l1.takeWhile isDigitDot
  if run.isEmpty then none
  else
    let l2 := (l1.dropWhile isDigitDot).dropWhile isPySpace
    match l2 with
    | '/' :: l3 =>
      if ['1', '0'].isPrefixOf (l3.dropWhile isPySpace) then some run else none
    | _ => none

/-- Model of the regex fragment `\s*([\d\.]+)` at a position. -/
def numOnly (l : List Char) : Option (List Char) :=
  let run := (l.dropWhile isPySpace).takeWhile isDigitDot
  if run.isEmpty then none else some run

/-- The label alternation shared by the first two score patterns, in the order
the regex lists the alternatives. -/
def scoreLabels : List (List Char) :=
  ["**Overall Score:**".data, "Overall Score:".data, "TOTAL WEIGHTED SCORE:".data,
   "Final Combined Score:".data, "**Final Combined Score:**".data]

/-- Model of the regex prefix `-?\s*`: consume an optional dash, then
whitespace.  If the optional dash is present but the rest fails, the dashless
alternative starts at a dash and fails the following literal anyway, so
consuming greedily is faithful. -/
def dashSpaces (l : List Char) : List Char :=
  match l with
  | '-' :: rest => rest.dropWhile isPySpace
  | _ => l.dropWhile isPySpace

/-- Model of the regex prefix `#+\s*Final Combined Score:?` at a position
(case-insensitive), returning the input after the optional colon.  The colon,
if present, must be consumed: leaving it would put `:` where `\s*[\d\.]`
cannot match. -/
def hashesThenCombined (l : List Char) : Option (List Char) :=
  match l with
  | '#' :: rest =>
    let r1 := (rest.dropWhile (fun c => c == '#')).dropWhile isPySpace
    match matchLitCI "Final Combined Score".data r1 with
    | some r2 => some (match r2 with | ':' :: r3 => r3 | _ => r2)
    | none => none
  | _ => none

/-- Score pattern 1: label alternation then `\s*([\d\.]+)\s*/\s*10`. -/
def scorePat1 (l : List Char) : Option (List Char) :=
  (matchFirstLit scoreLabels l).bind numThenSlashTen

/-- Score pattern 2: label alternation then `\s*([\d\.]+)`. -/
def scorePat2 (l : List Char) : Option (List Char) :=
  (matchFirstLit scoreLabels l).bind numOnly

/-- Score pattern 3: `-?\s*\*\*Final Combined Score:\*\*\s*([\d\.]+)\s*/\s*10`. -/
def scorePat3 (l : List Char) : Option (List Char) :=
  (matchLitCI "**Final Combined Score:**".data (dashSpaces l)).bind numThenSlashTen

/-- Score pattern 4: `-?\s*\*\*Final Combined Score:\*\*\s*([\d\.]+)`. -/
def scorePat4 (l : List Char) : Option (List Char) :=
  (matchLitCI "**Final Combined Score:**".data (dashSpaces l)).bind numOnly

/-- Score pattern 5: `#+\s*Final Combined Score:?\s*([\d\.]+)\s*/\s*10`. -/
def scorePat5 (l : List Char) : Option (List Char) :=
  (hashesThenCombined l).bind numThenSlashTen

/-- Score pattern 6: `#+\s*Final Combined Score:?\s*([\d\.]+)`. -/
def scorePat6 (l : List Char) : Option (List Char) :=
  (hashesThenCombined l).bind numOnly

/-- The ordered pattern list of `_extract_score`. -/
def scorePatterns : List (List Char → Option (List Char)) :=
  [scorePat1, scorePat2, scorePat3, scorePat4, scorePat5, scorePat6]

/-- Python `float(s)` for `s` a run of `[\d\.]` characters: accepts at most
one dot and at least one digit, and is otherwise exact. -/
def pyFloatOfRun (run : List Char) : Option Rat :=
  if run.count '.' == 0 then
    if run.isEmpty then none else some ((digitsToNat run : Nat) : Rat)
  else if run.count '.' == 1 then
    let ip := run.takeWhile (fun c => c != '.')
    let fp := (run.dropWhile (fun c => c != '.')).drop 1
    if ip.isEmpty && fp.isEmpty then none
    else some (mkRat (digitsToNat (ip ++ fp)) ((10 : Nat) ^ fp.length))
  else none

/-- The pattern loop of `_extract_score`: for each pattern in order, search;
on a match, return its float value, except that a malformed match falls
through to the next pattern (the `try/except/continue`); return 0.0 when the
patterns are exhausted. -/
def extractScoreGo : List (List Char → Option (List Char)) → List Char → Rat
  | [], _ => 0
  | p :: ps, cs =>
    match scanFirst p cs with
    | some run =>
      match pyFloatOfRun run with
      | some q => q
      | none => extractScoreGo ps cs
    | none => extractScoreGo ps cs

/-- `ReportParser._extract_score`. -/
def extract_score (content : String) : Rat :=
  extractScoreGo scorePatterns content.data

/-- Python `s.strip()` (ASCII whitespace). -/
def stripWs (l : List Char) : List Char :=
  ((l.dropWhile isPySpace).reverse.dropWhile isPySpace).reverse

/-- Python `s.strip("- ")`: strip dashes and spaces from both ends. -/
def stripDashSpace (l : List Char) : List Char :=
  let p := fun c => c == '-' || c == ' '
  ((l.dropWhile p).reverse.dropWhile p).reverse

/-- Characters of the capture class `[A-Z ]`. -/
def isUpperSpace (c : Char) : Bool := ('A' ≤ c && c ≤ 'Z') || c == ' '

/-- Model of the regex fragment `\s*([A-Z ]+)` at a position.  The greedy
`\s*` takes the whole whitespace run when an `[A-Z ]` character follows;
otherwise the regex backtracks, and the capture succeeds exactly when the
whitespace run contains a plain space, capturing its last one (the characters
between that space and the first non-whitespace are non-space whitespace,
outside the class). -/
def capUpperRun (l : List Char) : Option (List Char) :=
  let ws := l.takeWhile isPySpace
  let rest := l.dropWhile isPySpace
  let run := rest.takeWhile isUpperSpace
  if !run.isEmpty then some run
  else if ws.contains ' ' then some [' ']
  else none

/-- Model of the optional colon `:?` before `\s*`: consume when present (a
kept colon cannot match `\s*[A-Z ]` or `\s*[\d\.]`). -/
def colonOpt (l : List Char) : List Char :=
  match l with
  | ':' :: r => r
  | _ => l

/-- Recommendation pattern 1: `\*\*Decision:\*\* ([^\n]+)` (case-sensitive),
capturing greedily to the end of the line. -/
def recPat1 (l : List Char) : Option (List Char) :=
  (matchLit "**Decision:** ".data l).bind (fun r =>
    let cap := r.takeWhile (fun c => c != '\n')
    if cap.isEmpty then none else some cap)

/-- Recommendation pattern 2: `#+\s*Final Recommendation:?\s*([A-Z ]+)`. -/
def recPat2 (l : List Char) : Option (List Char) :=
  match l with
  | '#' :: rest =>
    let r1 := (rest.dropWhile (fun c => c == '#')).dropWhile isPySpace
    (matchLit "Final Recommendation".data r1).bind (fun r2 => capUpperRun (colonOpt r2))
  | _ => none

/-- Recommendation pattern 3: `-?\s*\*\*Final Recommendation:\*\*\s*([A-Z ]+)`. -/
def recPat3 (l : List Char) : Option (List Char) :=
  (matchLit "**Final Recommendation:**".data (dashSpaces l)).bind capUpperRun

/-- Recommendation pattern 4: `Final Recommendation:?\s*([A-Z ]+)`. -/
def recPat4 (l : List Char) : Option (List Char) :=
  (matchLit "Final Recommendation".data l).bind (fun r2 => capUpperRun (colonOpt r2))

/-- `ReportParser._extract_recommendation`: four searches in order, each
returning its stripped capture on a match; `"Unknown"` when none match. -/
def extract_recommendation (content : String) : String :=
  match scanFirst recPat1 content.data with
  | some cap => String.mk (stripWs cap)
  | none =>
    match scanFirst recPat2 content.data with
    | some cap => String.mk (stripWs cap)
    | none =>
      match scanFirst recPat3 content.data with
      | some cap => String.mk (stripWs cap)
      | none =>
        match scanFirst recPat4 content.data with
        | some cap => String.mk (stripWs cap)
        | none => "Unknown"

/-- First occurrence of `pat` in the input: `(before, after-the-pattern)`. -/
def findSub (pat : List Char) : List Char → Option (List Char × List Char)
  | [] => if pat.isEmpty then some ([], []) else none
  | c :: rest =>
    if pat.isPrefixOf (c :: rest) then some ([], (c :: rest).drop pat.length)
    else (findSub pat rest).map (fun pr => (c :: pr.1, pr.2))

/-- Python `s.split("\n")`. -/
def splitOnNl : List Char → List (List Char)
  | [] => [[]]
  | c :: rest =>
    if c == '\n' then [] :: splitOnNl rest
    else
      match splitOnNl rest with
      | [] => [[c]]
      | g :: gs => (c :: g) :: gs

/-- Model of `re.search(start + "([\s\S]+?)" + stop, content)`: the match
starts at the first occurrence of `start` (the lazy middle can cross later
`start` occurrences, so a later start is never needed), and the nonempty lazy
capture ends at the first occurrence of `stop` at least one character past
`start`. -/
def sectionBetween (startMark stopMark : List Char) (content : List Char) :
    Option (List Char) :=
  match findSub startMark content with
  | none => none
  | some (_, after) =>
    match after with
    | [] => none
    | c :: rest =>
      match findSub stopMark rest with
      | none => none
      | some (mid, _) => some (c :: mid)

/-- The line post-processing shared by `_extract_strengths` and
`_extract_gaps`: strip the capture, split into lines, drop blank lines, strip
`"- "` list markers and whitespace from each kept line. -/
def cleanListLines (cap : List Char) : List String :=
  (((splitOnNl (stripWs cap)).filter (fun s => !(stripWs s).isEmpty)).map
    (fun s => String.mk (stripWs (stripDashSpace s))))

/-- `ReportParser._extract_strengths`. -/
def extract_strengths (content : String) : List String :=
  match sectionBetween "### ✅ Strengths\n".data "### ❌ Gaps".data content.data with
  | none => []
  | some cap => cleanListLines cap

/-- `ReportParser._extract_gaps`. -/
def extract_gaps (content : String) : List String :=
  match sectionBetween "### ❌ Gaps\n".data "## Weighted Score Analysis".data content.data with
  | none => []
  | some cap => cleanListLines cap

/-- The default record every `ReportParser` path starts from (the dict literal
at the top of `parse_report`, `_parse_json_report` and
`_parse_markdown_report`, with `report_content` filled per path). -/
def defaultRecord (candidate_name : String) (report_content : String) : JsonObj :=
  jobj [("candidate_name", .str candidate_name), ("valid", .bool true),
        ("error", .str ""), ("score", .num 0), ("recommendation", .str "Unknown"),
        ("strengths", .arr .nil), ("gaps", .arr .nil),
        ("report_content", .str report_content)]

/-- `ReportParser._parse_markdown_report`. -/
def parse_markdown_report (content : String) (candidate_name : String) : JsonObj :=
  jobj [("candidate_name", .str candidate_name), ("valid", .bool true),
        ("error", .str ""), ("score", .num (extract_score content)),
        ("recommendation", .str (extract_recommendation content)),
        ("strengths", .arr (jarr ((extract_strengths content).map Json.str))),
        ("gaps", .arr (jarr ((extract_gaps content).map Json.str))),
        ("report_content", .str content)]

/-- Python `x.get(key, dflt)` on an arbitrary value: only dicts have `.get`,
anything else raises `AttributeError`. -/
def pyGet (v : Json) (key : String) (dflt : Json) : Except PyErr Json :=
  match v with
  | .obj kvs => .ok (dictGet kvs key dflt)
  | _ => .error (.attributeError (pyTypeName v ++ " object has no attribute get"))

/-- Python `for x in v`: lists iterate elements, strings iterate one-character
strings, dicts iterate keys; other values raise `TypeError`. -/
def pyIter (v : Json) : Except PyErr (List Json) :=
  match v with
  | .arr xs => .ok xs.toList
  | .str s => .ok (s.data.map (fun c => .str (String.mk [c])))
  | .obj kvs => .ok (kvs.keysList.map Json.str)
  | _ => .error (.typeError (pyTypeName v ++ " object is not iterable"))

/-- The per-item conversion of the strengths/gaps loops:
`item.get(field, "") if isinstance(item, dict) else str(item)`. -/
def strengthItem (field : String) (item : Json) : Json :=
  match item with
  | .obj kvs => dictGet kvs field (.str "")
  | v => .str (pyStr v)

/-- Shorthand for the bind of the `Except PyErr` embedding. -/
theorem except_bind_error {α β : Type} (e : PyErr) (f : α → Except PyErr β) :
    (Except.error e >>= f) = Except.error e := rfl

/-- Shorthand for the bind of the `Except PyErr` embedding. -/
theorem except_bind_ok {α β : Type} (a : α) (f : α → Except PyErr β) :
    (Except.ok a >>= f : Except PyErr β) = f a := rfl

/-- `ReportParser._parse_json_report`.  Statements execute in source order, so
the first failing attribute access or iteration determines the raised
exception; on success the whole payload is merged over the normalized record
(`result.update(json_data)`), last write wins. -/
def parse_json_report (json_data : Json) (candidate_name : String) :
    Except PyErr JsonObj := do
  let base := defaultRecord candidate_name (jsonDumps json_data)
  let executive_summary ← pyGet json_data "executive_summary" (.obj .nil)
  let cn ← pyGet executive_summary "candidate_name" (.str candidate_name)
  let sc ← pyGet executive_summary "overall_score" (.num 0)
  let recm ← pyGet executive_summary "overall_recommendation" (.str "Unknown")
  let strengths_data ← pyGet json_data "strengths_and_differentiators" (.obj .nil)
  let core_strengths ← pyGet strengths_data "core_strengths" (.arr .nil)
  let unique_values ← pyGet strengths_data "unique_value_propositions" (.arr .nil)
  let coreItems ← pyIter core_strengths
  let valItems ← pyIter unique_values
  let strengths :=
    (coreItems.map (strengthItem "strength")
      ++ valItems.map (strengthItem "value_proposition")).filter truthy
  let gaps_data ← pyGet json_data "gaps_and_risk_assessment" (.obj .nil)
  let critical_gaps ← pyGet gaps_data "critical_gaps" (.arr .nil)
  let risk_factors ← pyGet gaps_data "performance_risk_factors" (.arr .nil)
  let gapItems ← pyIter critical_gaps
  let riskItems ← pyIter risk_factors
  let gaps :=
    (gapItems.map (strengthItem "gap")
      ++ riskItems.map (strengthItem "risk")).filter truthy
  let result := dictSet base "candidate_name" cn
  let result := dictSet result "score" sc
  let result := dictSet result "recommendation" recm
  let result := dictSet result "strengths" (.arr (jarr strengths))
  let result := dictSet result "gaps" (.arr (jarr gaps))
  match json_data with
  | .obj kvs => return dictUpdate result kvs
  | _ => return result

/-- Outcome of `os.path.exists` plus `open(...).read()` for one path: the
file is missing, reading raises, or reading yields text. -/
inductive FileRead where
  | missing : FileRead
  | readError (e : PyErr) : FileRead
  | content (text : String) : FileRead
deriving DecidableEq

/-- `ReportParser.parse_report`, over an explicit file system `fs`.  The outer
`try/except Exception` turns every raised error into an invalid record whose
`error` is `"Error parsing report: " ++ str(e)`; the inner
`except json.JSONDecodeError` alone selects the markdown fallback. -/
def parse_report (fs : String → FileRead) (report_path candidate_name : String) :
    Except PyErr JsonObj :=
  let result := defaultRecord candidate_name ""
  match fs report_path with
  | .missing =>
    .ok (dictSet (dictSet result "valid" (.bool false))
          "error" (.str "Report file not found"))
  | .readError e =>
    .ok (dictSet (dictSet result "valid" (.bool false))
          "error" (.str ("Error parsing report: " ++ pyErrMsg e)))
  | .content report_content =>
    let result := dictSet result "report_content" (.str report_content)
    match jsonLoads report_content with
    | .ok json_data =>
      match parse_json_report json_data candidate_name with
      | .ok r => .ok r
      | .error e =>
        .ok (dictSet (dictSet result "valid" (.bool false))
              "error" (.str ("Error parsing report: " ++ pyErrMsg e)))
    | .error (.jsonDecodeError _) =>
      .ok (parse_markdown_report report_content candidate_name)
    | .error e =>
      .ok (dictSet (dictSet result "valid" (.bool false))
            "error" (.str ("Error parsing report: " ++ pyErrMsg e)))

/-!
Embedding of `utils/barem_generator.py` (`BaremGenerator._generate_barem_from_gemini`).
-/

/-- Whether `pat` occurs as a contiguous substring of `l` (Python `pat in s`). -/
def listInfixOf (pat : List Char) : List Char → Bool
  | [] => pat.isEmpty
  | c :: rest => pat.isPrefixOf (c :: rest) || listInfixOf pat rest

/-- Python `pat in s` on strings. -/
def strContains (s pat : String) : Bool := listInfixOf pat.data s.data

/-- Python `s.lower()` (ASCII case mapping suffices for the markers checked). -/
def strLower (s : String) : String := String.mk (s.data.map Char.toLower)

/-- The transient-overload classification of the retry loop:
`"503" in error_msg or "overloaded" in error_msg.lower()`. -/
def isOverloadError (msg : String) : Bool :=
  strContains msg "503" || strContains (strLower msg) "overloaded"

/-- One interaction with the generation service, attempt by attempt: either a
response with its `.text` (possibly `None`), or any exception raised inside the
`try` block - API errors, the missing-key `ValueError`, etc. - carried as
`str(e)`. -/
inductive GenOutcome where
  | ok (text : Option String) : GenOutcome
  | err (msg : String) : GenOutcome
deriving DecidableEq

/-- Model of `re.search(r"\{.*\}", text, re.DOTALL)`: with `.` matching
newlines and `.*` greedy, the match runs from the first opening brace (that
has any closing brace after it) to the last closing brace of the whole text. -/
def greedyBraceSpan (s : String) : Option String :=
  match s.data.dropWhile (fun ch => ch != lbrace) with
  | [] => none
  | c :: rest =>
    if rest.contains rbrace then
      some (String.mk (c :: (rest.reverse.dropWhile (fun ch => ch != rbrace)).reverse))
    else none

/-- The body of one `try` block of `_generate_barem_from_gemini`:
`.ok (some rubric)` is `return json.loads(match.group(0))` succeeding,
`.ok none` is `return None` (no `{...}` match in the response text, after the
`or ""` coalescing of a `None` text), and `.error msg` is an exception
reaching the `except` clause with `str(e) = msg` (including a failing
`json.loads`, whose `JSONDecodeError` is an `Exception`). -/
def attemptStep : GenOutcome → Except String (Option Json)
  | .err msg => .error msg
  | .ok text =>
    match greedyBraceSpan (text.getD "") with
    | some span =>
      match jsonLoads span with
      | .ok j => .ok (some j)
      | .error e => .error (pyErrMsg e)
    | none => .ok none

/-- The `for attempt in range(max_retries)` loop, transcribed branch by
branch; the backoff sleeps are timing only and are omitted.  Returns the
function result paired with the number of attempts actually made.  Note the
`except` clause: an overload-classified error sleeps and continues; any error
on the last attempt returns `None`; and an error that is neither simply falls
off the end of the loop body, so the loop proceeds to the next attempt. -/
def baremGo (outcomes : Nat → GenOutcome) (maxRetries : Nat) :
    Nat → Nat → Option Json × Nat
  | 0, attempt => (none, attempt)
  | fuel + 1, attempt =>
    if attempt < maxRetries then
      match attemptStep (outcomes attempt) with
      | .ok r => (r, attempt + 1)
      | .error msg =>
        if isOverloadError msg && attempt < maxRetries - 1 then
          baremGo outcomes maxRetries fuel (attempt + 1)
        else if attempt == maxRetries - 1 then (none, attempt + 1)
        else baremGo outcomes maxRetries fuel (attempt + 1)
    else (none, attempt)

/-- `BaremGenerator._generate_barem_from_gemini` with `max_retries = 3`,
parameterized by the outcome of each attempt. -/
def generate_barem_from_gemini (outcomes : Nat → GenOutcome) : Option Json × Nat :=
  baremGo outcomes 3 3 0

/-- Modelled from the spec: "extract the first balanced `{...}` span from the
raw response text" and scan to the first opening brace and return the span up to
its matching closing brace, tracking nesting depth.  This is the
description the specification gives of the postprocessing, stated for comparison with
`greedyBraceSpan`, the regex the source actually uses. -/
def firstBalancedSpanGo : Nat → List Char → List Char → Option (List Char)
  | _, _, [] => none
  | depth, acc, ch :: rest =>
    if ch == lbrace then firstBalancedSpanGo (depth + 1) (ch :: acc) rest
    else if ch == rbrace then
      if depth == 1 then some (ch :: acc).reverse
      else firstBalancedSpanGo (depth - 1) (ch :: acc) rest
    else firstBalancedSpanGo depth (ch :: acc) rest

/-- Modelled from the spec (see `firstBalancedSpanGo`): the first balanced
brace span of the text, if any. -/
def firstBalancedSpan (s : String) : Option String :=
  match s.data.dropWhile (fun ch => ch != lbrace) with
  | [] => none
  | l => (firstBalancedSpanGo 0 [] l).map String.mk

/-!
Embedding of `main.py` (`ResumeAnalysisEngine.analyze_multiple_resumes`).
-/

/-- Observable steps of the batch loop, in execution order: a progress
callback invocation `(idx, total, candidate_name)`, one
`analyze_single_resume` invocation, and the temp-file cleanup. -/
inductive BatchEvent where
  | progress (idx total : Nat) (name : String) : BatchEvent
  | evaluate (name : String) : BatchEvent
  | cleanup (path : String) : BatchEvent
deriving DecidableEq

/-- Python truthiness of the `barem` optional (`if not barem`): `None` and an
empty dict are falsy. -/
def baremTruthy : Option Json → Bool
  | none => false
  | some j => truthy j

/-- The numeric sort key `x.get("score", 0)`: Python compares numbers, with
booleans counting as 0/1.  A non-numeric score would make the Python sort raise
`TypeError`; that case is outside the claims and is mapped to key 0 here (the
ranking theorems restrict to numerically-scored records, see
`scoreIsNumeric`). -/
def scoreVal (r : JsonObj) : Rat :=
  match dictGet r "score" (.num 0) with
  | .num q => q
  | .bool true => 1
  | .bool false => 0
  | _ => 0

/-- Whether the sort key of the record is numeric in the Python sense (int, float or
bool), i.e. whether `scoreVal` is a faithful key for it. -/
def scoreIsNumeric (r : JsonObj) : Bool :=
  match dictGet r "score" (.num 0) with
  | .num _ => true
  | .bool _ => true
  | _ => false

/-- Stable descending insertion used to model
`results.sort(key=lambda x: x.get("score", 0), reverse=True)`: the element is
placed before the first already-placed record whose key is less than or equal
to its own.  The output of a stable descending sort is uniquely determined (sorted
by key descending, records of equal key in input order), so this executable
formulation is extensionally the sort Python performs. -/
def insertByScoreDesc (a : JsonObj) : List JsonObj → List JsonObj
  | [] => [a]
  | b :: bs =>
    if scoreVal b ≤ scoreVal a then a :: b :: bs else b :: insertByScoreDesc a bs

/-- The ranking step of `analyze_multiple_resumes` (see `insertByScoreDesc`). -/
def sort_results : List JsonObj → List JsonObj
  | [] => []
  | a :: rest => insertByScoreDesc a (sort_results rest)

/-- The candidate loop of `analyze_multiple_resumes`: for each
`(resume_path, candidate_name)` in order - callback first (when supplied),
then the evaluation, then cleanup - collecting the records and the event
trace. -/
def batchLoop (evalFn : String → String → JsonObj) (cb : Bool)
    (total : Nat) : Nat → List (String × String) → List JsonObj × List BatchEvent
  | _, [] => ([], [])
  | idx, (path, name) :: rest =>
    let pre : List BatchEvent := if cb then [.progress idx total name] else []
    let r := evalFn path name
    let (rs, evs) := batchLoop evalFn cb total (idx + 1) rest
    (r :: rs, pre ++ .evaluate name :: .cleanup path :: evs)

/-- `ResumeAnalysisEngine.analyze_multiple_resumes`, parameterized by the
rubric obtained from `generate_or_load_barem`, the per-candidate evaluator
(`analyze_single_resume` with the job inputs fixed), the
`(file_path, candidate_name)` list, and whether a progress callback was
supplied.  Returns the (sorted) results together with the trace of observable
steps; the summary artifact write (`_save_batch_results`) is a best-effort
side effect outside the data contract and is not traced. -/
def analyze_multiple_resumes (barem : Option Json)
    (evalFn : String → String → JsonObj)
    (resume_files : List (String × String)) (cb : Bool) :
    List JsonObj × List BatchEvent :=
  if baremTruthy barem then
    let (results, events) := batchLoop evalFn cb resume_files.length 0 resume_files
    (sort_results results, events)
  else ([], [])

example : isOverloadError "Error 503 service unavailable" = true := by decide
example : isOverloadError "Model OVERLOADED right now" = true := by decide
example : isOverloadError "quota exceeded" = false := by decide
example : greedyBraceSpan "a\x7bb\x7dc\x7bd" = some "\x7bb\x7d" := by decide
example : greedyBraceSpan "\x7b\"a\": 1\x7d x \x7b\"b\": 2\x7d"
    = some "\x7b\"a\": 1\x7d x \x7b\"b\": 2\x7d" := by decide
example : firstBalancedSpan "\x7b\"a\": 1\x7d x \x7b\"b\": 2\x7d"
    = some "\x7b\"a\": 1\x7d" := by decide
example : generate_barem_from_gemini (fun _ => .ok (some "\x7b\x7d"))
    = (some (.obj .nil), 1) := by decide
example : generate_barem_from_gemini (fun _ => .err "503")
    = (none, 3) := by decide
example : generate_barem_from_gemini (fun n => if n == 0 then .err "oops" else .ok (some "\x7b\x7d"))
    = (some (.obj .nil), 2) := by decide
example : sort_results [jobj [("score", .num 3)], jobj [("score", .num 9)]]
    = [jobj [("score", .num 9)], jobj [("score", .num 3)]] := by decide

/-!
Claim theorems.
-/

/-- The attempt outcomes exhibiting the C1 divergence: the first attempt fails
with an error carrying no transient-overload marker, and any further attempt
would succeed with the rubric parsed from a bare brace pair. -/
def c1Outcomes : Nat → GenOutcome := fun n =>
  if n == 0 then .err "invalid request" else .ok (some "\x7b\x7d")

/-- C1: the claim says a failed generation attempt is followed by a further
attempt only when the error text carries a transient-overload marker, and that
any other failure makes the call return null with no further attempt.  The
code disagrees: after a non-overload failure on a non-final attempt, neither
branch of the `except` clause returns, so the `for` loop proceeds to the next
attempt (contradicting the adjacent code comment that other errors are not retried).
Here the first attempt fails with `"invalid request"` - not overload-classified
- yet a second attempt is made and its rubric is returned. -/
theorem c1_non_overload_failure_still_retries :
    isOverloadError "invalid request" = false
    ∧ generate_barem_from_gemini c1Outcomes = (some (Json.obj .nil), 2) := by decide

/-- C2: if rubric generation yields null, the batch run returns an empty
result list, and the event trace is empty, so in particular no per-candidate
evaluation (and no callback, no cleanup) ever happens. -/
theorem c2_null_rubric_aborts_batch (evalFn : String → String → JsonObj)
    (files : List (String × String)) (cb : Bool) :
    analyze_multiple_resumes none evalFn files cb = ([], [])
    ∧ ∀ name, BatchEvent.evaluate name ∉ (analyze_multiple_resumes none evalFn files cb).2 := by
  refine ⟨rfl, ?_⟩
  intro name h
  simp [analyze_multiple_resumes, baremTruthy] at h

/-- C3: `parse_report` returns a record for every file-system behaviour -
missing file, raising read, or any content - and never propagates an
exception: the embedded computation is `Except.ok` in every case. -/
theorem c3_parse_report_never_raises (fs : String → FileRead) (path name : String) :
    ∃ r, parse_report fs path name = Except.ok r := by
  have hok : (parse_report fs path name).isOk = true := by
    unfold parse_report
    cases fs path with
    | missing => rfl
    | readError e => rfl
    | content s =>
      cases hj : jsonLoads s with
      | ok v =>
        cases hp : parse_json_report v name with
        | ok r => simp only [hj, hp]; rfl
        | error e => simp only [hj, hp]; rfl
      | error e =>
        cases e with
        | jsonDecodeError m => simp only [hj]; rfl
        | attributeError m => simp only [hj]; rfl
        | typeError m => simp only [hj]; rfl
        | otherError m => simp only [hj]; rfl
  cases hr : parse_report fs path name with
  | ok r => exact ⟨r, rfl⟩
  | error e => rw [hr] at hok; cases hok

/-- C5: when the report file does not exist, the returned record is exactly
the default record with `valid := false` and
`error := "Report file not found"` - in particular score 0 - and it is
independent of any file content, neither parse path being reachable in that
branch. -/
theorem c5_missing_report_file (fs : String → FileRead) (path name : String)
    (h : fs path = FileRead.missing) :
    parse_report fs path name
      = Except.ok (jobj [("candidate_name", .str name), ("valid", .bool false),
          ("error", .str "Report file not found"), ("score", .num 0),
          ("recommendation", .str "Unknown"), ("strengths", .arr .nil),
          ("gaps", .arr .nil), ("report_content", .str "")]) := by
  unfold parse_report
  rw [h]
  rfl

/-- C5 witness: the missing-file record at a concrete path and candidate. -/
theorem c5_missing_report_file_witness :
    parse_report (fun _ => FileRead.missing) "output/reports/report_x.md" "X"
      = Except.ok (jobj [("candidate_name", .str "X"), ("valid", .bool false),
          ("error", .str "Report file not found"), ("score", .num 0),
          ("recommendation", .str "Unknown"), ("strengths", .arr .nil),
          ("gaps", .arr .nil), ("report_content", .str "")]) :=
  c5_missing_report_file (fun _ => FileRead.missing) "output/reports/report_x.md" "X" rfl

/-- Whether a decoded value is a dict. -/
def isObjJson : Json → Bool
  | .obj _ => true
  | _ => false

/-- On a non-dict value every `.get` access raises `AttributeError`. -/
theorem pyGet_non_object (v : Json) (key : String) (dflt : Json)
    (hobj : isObjJson v = false) :
    pyGet v key dflt
      = Except.error (.attributeError (pyTypeName v ++ " object has no attribute get")) := by
  cases v <;> first | rfl | (simp [isObjJson] at hobj)

/-- On a non-dict payload, `_parse_json_report` raises at its first attribute
access (`json_data.get("executive_summary", ...)`). -/
theorem parse_json_report_non_object (v : Json) (name : String)
    (hobj : isObjJson v = false) :
    parse_json_report v name
      = Except.error (.attributeError (pyTypeName v ++ " object has no attribute get")) := by
  unfold parse_json_report
  rw [pyGet_non_object v "executive_summary" (.obj .nil) hobj]
  rfl

/-- C10: when the report content is valid JSON whose top-level value is not an
object, the structured path raises (`.get` on a non-dict), the outer handler
catches, and the caller sees an invalid record with score 0 and an error
message beginning `"Error parsing report:"`. -/
theorem c10_top_level_non_object (fs : String → FileRead) (path name content : String)
    (v : Json) (hfs : fs path = FileRead.content content)
    (hv : jsonLoads content = Except.ok v) (hobj : isObjJson v = false) :
    ∃ r, parse_report fs path name = Except.ok r
      ∧ dictGet r "valid" (Json.bool true) = Json.bool false
      ∧ dictGet r "score" (Json.num 1) = Json.num 0
      ∧ ∃ m : String, dictGet r "error" (Json.str "")
          = Json.str ("Error parsing report: " ++ m) := by
  have hstep : parse_report fs path name
      = Except.ok (dictSet (dictSet (dictSet (defaultRecord name "")
          "report_content" (Json.str content)) "valid" (Json.bool false))
          "error" (Json.str ("Error parsing report: "
            ++ (pyTypeName v ++ " object has no attribute get")))) := by
    unfold parse_report
    simp only [hfs, hv, parse_json_report_non_object v name hobj]
    rfl
  refine ⟨_, hstep, ?_, ?_, ⟨pyTypeName v ++ " object has no attribute get", ?_⟩⟩
  · rfl
  · rfl
  · rfl

/-- C10 witness: content `"[1, 2]"` parses as a JSON array, and the record
comes back invalid with score 0 and the `"Error parsing report:"` prefix. -/
theorem c10_top_level_non_object_witness :
    ∃ r, parse_report (fun _ => FileRead.content "[1, 2]") "p" "X" = Except.ok r
      ∧ dictGet r "valid" (Json.bool true) = Json.bool false
      ∧ dictGet r "score" (Json.num 1) = Json.num 0
      ∧ ∃ m : String, dictGet r "error" (Json.str "")
          = Json.str ("Error parsing report: " ++ m) :=
  c10_top_level_non_object (fun _ => FileRead.content "[1, 2]") "p" "X" "[1, 2]"
    (Json.arr (jarr [Json.num 1, Json.num 2])) rfl (by decide) (by decide)

/-- Every value `float` accepts from a `[\d\.]` run is non-negative. -/
theorem pyFloatOfRun_nonneg (run : List Char) (q : Rat)
    (h : pyFloatOfRun run = some q) : 0 ≤ q := by
  unfold pyFloatOfRun at h
  by_cases h0 : run.count '.' == 0
  · rw [if_pos h0] at h
    by_cases he : run.isEmpty
    · rw [if_pos he] at h; cases h
    · rw [if_neg he] at h
      cases h
      exact_mod_cast Nat.cast_nonneg (α := Rat) (digitsToNat run)
  · rw [if_neg h0] at h
    by_cases h1 : run.count '.' == 1
    · rw [if_pos h1] at h
      by_cases hb : (run.takeWhile (fun c => c != '.')).isEmpty
          && ((run.dropWhile (fun c => c != '.')).drop 1).isEmpty
      · rw [if_pos hb] at h; cases h
      · rw [if_neg hb] at h
        cases h
        rw [Rat.mkRat_eq_div]
        positivity
    · rw [if_neg h1] at h; cases h

/-- The score the pattern loop extracts is always non-negative: every pattern
captures a run of digits and dots, and every accepted float value of such a
run is non-negative; the fallthrough default is 0. -/
theorem extractScoreGo_nonneg (ps : List (List Char → Option (List Char)))
    (cs : List Char) : 0 ≤ extractScoreGo ps cs := by
  induction ps with
  | nil => simp [extractScoreGo]
  | cons p ps ih =>
    unfold extractScoreGo
    cases hs : scanFirst p cs with
    | none => simp only [hs]; exact ih
    | some run =>
      cases hq : pyFloatOfRun run with
      | none => simp only [hs, hq]; exact ih
      | some q => simp only [hs, hq]; exact pyFloatOfRun_nonneg run q hq

/-- C7 (amended): the free-text path stores `Json.num (extract_score content)`
as the record score, and that value is always non-negative; no upper bound
(and in particular no clamping to 10) is enforced on either path. -/
theorem c7_markdown_score_nonneg (content name : String) :
    ∃ q : Rat,
      dictGet (parse_markdown_report content name) "score" (Json.num 1) = Json.num q
      ∧ 0 ≤ q := by
  exact ⟨extract_score content, rfl, extractScoreGo_nonneg _ _⟩

/-- The file system serving the C7 counterexample content. -/
def c7fs : String → FileRead := fun _ => FileRead.content "Overall Score: 999"

/-- C7 counterexample: the content `"Overall Score: 999"` is not JSON, takes
the free-text path, and yields a record whose score is 999 - far outside
`[0, 10]` - with `valid` still true.  So not every record `parse_report`
returns has a score in `[0, 10]`. -/
theorem c7_score_above_ten :
    parse_report c7fs "report.md" "X"
      = Except.ok (jobj [("candidate_name", .str "X"), ("valid", .bool true),
          ("error", .str ""), ("score", .num 999),
          ("recommendation", .str "Unknown"), ("strengths", .arr .nil),
          ("gaps", .arr .nil), ("report_content", .str "Overall Score: 999")])
    ∧ ¬ ((999 : Rat) ≤ 10) := by decide

/-- Whether any of the six score patterns matches anywhere in the content. -/
def anyScorePatternFound (content : String) : Bool :=
  scorePatterns.any (fun p => (scanFirst p content.data).isSome)

/-- C8: free-text score extraction tries the ordered pattern list with
first-match-wins semantics: `"**Overall Score:** 7.5/10"` yields 7.5; content
matched by no pattern yields 0.0; and a match whose capture fails float
parsing (here `"1.2.3"`) is skipped, falling through to the remaining
patterns (which then find nothing, yielding 0.0). -/
theorem c8_free_text_score_extraction :
    extract_score "**Overall Score:** 7.5/10" = 7.5
    ∧ (∀ content : String,
        anyScorePatternFound content = false → extract_score content = 0)
    ∧ extract_score "Overall Score: 1.2.3" = 0 := by
  refine ⟨?_, ?_, by decide⟩
  · have h : extract_score "**Overall Score:** 7.5/10" = mkRat 75 10 := by decide
    rw [h]
    norm_num [mkRat]
  · intro content h
    have hnone : ∀ p ∈ scorePatterns, scanFirst p content.data = none := by
      intro p hp
      cases hs : scanFirst p content.data with
      | none => rfl
      | some run =>
        exfalso
        have hsome : (scanFirst p content.data).isSome = true := by rw [hs]; rfl
        have hany : anyScorePatternFound content = true :=
          List.any_eq_true.mpr ⟨p, hp, hsome⟩
        rw [hany] at h
        cases h
    have e1 := hnone scorePat1 (by simp [scorePatterns])
    have e2 := hnone scorePat2 (by simp [scorePatterns])
    have e3 := hnone scorePat3 (by simp [scorePatterns])
    have e4 := hnone scorePat4 (by simp [scorePatterns])
    have e5 := hnone scorePat5 (by simp [scorePatterns])
    have e6 := hnone scorePat6 (by simp [scorePatterns])
    unfold extract_score
    rw [show scorePatterns
        = [scorePat1, scorePat2, scorePat3, scorePat4, scorePat5, scorePat6] from rfl]
    simp [extractScoreGo, e1, e2, e3, e4, e5, e6]

/-- C8 witness: a concrete content matching no pattern yields 0. -/
theorem c8_no_pattern_witness : extract_score "no score anywhere" = 0 :=
  c8_free_text_score_extraction.2.1 "no score anywhere" (by decide)

/-- The insertion step splits the already-sorted list at the first record
whose key does not exceed the inserted one. -/
theorem insertByScoreDesc_eq (a : JsonObj) (l : List JsonObj) :
    insertByScoreDesc a l
      = l.takeWhile (fun b => !decide (scoreVal b ≤ scoreVal a))
        ++ a :: l.dropWhile (fun b => !decide (scoreVal b ≤ scoreVal a)) := by
  induction l with
  | nil => rfl
  | cons b bs ih =>
    by_cases h : scoreVal b ≤ scoreVal a
    · simp [insertByScoreDesc, h, List.takeWhile_cons, List.dropWhile_cons]
    · simp [insertByScoreDesc, h, List.takeWhile_cons, List.dropWhile_cons, ih]

/-- Membership in an insertion. -/
theorem mem_insertByScoreDesc {y a : JsonObj} {l : List JsonObj} :
    y ∈ insertByScoreDesc a l ↔ y = a ∨ y ∈ l := by
  have hl := List.takeWhile_append_dropWhile
    (p := fun b => !decide (scoreVal b ≤ scoreVal a)) (l := l)
  rw [insertByScoreDesc_eq]
  constructor
  · intro h
    rcases List.mem_append.mp h with h1 | h2
    · exact Or.inr (by rw [← hl]; exact List.mem_append.mpr (Or.inl h1))
    · rcases List.mem_cons.mp h2 with h3 | h3
      · exact Or.inl h3
      · exact Or.inr (by rw [← hl]; exact List.mem_append.mpr (Or.inr h3))
  · intro h
    rcases h with rfl | h2
    · exact List.mem_append.mpr (Or.inr (List.mem_cons_self _ _))
    · rw [← hl] at h2
      rcases List.mem_append.mp h2 with h3 | h3
      · exact List.mem_append.mpr (Or.inl h3)
      · exact List.mem_append.mpr (Or.inr (List.mem_cons_of_mem _ h3))

/-- Insertion preserves the descending-by-key ordering. -/
theorem pairwise_insertByScoreDesc {a : JsonObj} {l : List JsonObj}
    (h : l.Pairwise (fun x y => scoreVal y ≤ scoreVal x)) :
    (insertByScoreDesc a l).Pairwise (fun x y => scoreVal y ≤ scoreVal x) := by
  induction l with
  | nil => simp [insertByScoreDesc]
  | cons b bs ih =>
    rw [List.pairwise_cons] at h
    obtain ⟨hb, hbs⟩ := h
    by_cases hba : scoreVal b ≤ scoreVal a
    · simp only [insertByScoreDesc, if_pos hba]
      rw [List.pairwise_cons]
      refine ⟨?_, List.pairwise_cons.mpr ⟨hb, hbs⟩⟩
      intro y hy
      rcases List.mem_cons.mp hy with rfl | hy2
      · exact hba
      · exact le_trans (hb y hy2) hba
    · simp only [insertByScoreDesc, if_neg hba]
      rw [List.pairwise_cons]
      refine ⟨?_, ih hbs⟩
      intro y hy
      rcases mem_insertByScoreDesc.mp hy with rfl | hy2
      · exact le_of_lt (lt_of_not_le hba)
      · exact hb y hy2

/-- The ranking step sorts by score descending. -/
theorem sort_results_pairwise (l : List JsonObj) :
    (sort_results l).Pairwise (fun x y => scoreVal y ≤ scoreVal x) := by
  induction l with
  | nil => simp [sort_results]
  | cons a rest ih => exact pairwise_insertByScoreDesc ih

/-- Inserting a record either prepends it to, or leaves untouched, the
sublist of records sharing any given key value: the records it jumps over all
have strictly greater keys. -/
theorem filter_insertByScoreDesc (a : JsonObj) (l : List JsonObj) (q : Rat) :
    (insertByScoreDesc a l).filter (fun r => decide (scoreVal r = q))
      = if scoreVal a = q
        then a :: l.filter (fun r => decide (scoreVal r = q))
        else l.filter (fun r => decide (scoreVal r = q)) := by
  have hl := List.takeWhile_append_dropWhile
    (p := fun b => !decide (scoreVal b ≤ scoreVal a)) (l := l)
  rw [insertByScoreDesc_eq, List.filter_append, List.filter_cons]
  by_cases hq : scoreVal a = q
  · have htake : (l.takeWhile (fun b => !decide (scoreVal b ≤ scoreVal a))).filter
        (fun r => decide (scoreVal r = q)) = [] := by
      rw [List.filter_eq_nil_iff]
      intro x hx
      have hgt := List.mem_takeWhile_imp hx
      simp only [Bool.not_eq_true', decide_eq_false_iff_not] at hgt
      simp only [decide_eq_true_eq]
      intro hxq
      exact hgt (le_of_eq (by rw [hxq, hq]))
    rw [if_pos hq, htake, if_pos (decide_eq_true hq)]
    conv_rhs => rw [← hl]
    rw [List.filter_append, htake]
    rfl
  · rw [if_neg hq, if_neg (by simp [hq] : ¬(decide (scoreVal a = q) = true))]
    conv_rhs => rw [← hl]
    rw [List.filter_append]

/-- Stability of the ranking: for every key value, the records carrying that
value appear in the output exactly as they appeared in the input. -/
theorem filter_sort_results (l : List JsonObj) (q : Rat) :
    (sort_results l).filter (fun r => decide (scoreVal r = q))
      = l.filter (fun r => decide (scoreVal r = q)) := by
  induction l with
  | nil => rfl
  | cons a rest ih =>
    show (insertByScoreDesc a (sort_results rest)).filter _ = _
    rw [filter_insertByScoreDesc, List.filter_cons]
    by_cases hq : scoreVal a = q
    · simp [hq, ih]
    · simp [hq, ih]

/-- The records collected by the batch loop are the evaluations of the input
files, in input order. -/
theorem batchLoop_results (evalFn : String → String → JsonObj) (cb : Bool)
    (total : Nat) (files : List (String × String)) (idx : Nat) :
    (batchLoop evalFn cb total idx files).1
      = files.map (fun pc => evalFn pc.1 pc.2) := by
  induction files generalizing idx with
  | nil => rfl
  | cons f rest ih =>
    cases f with
    | mk path name => simp [batchLoop, ih]

/-- The returned list of a (non-aborted) batch run is the stable descending
sort of the collected records. -/
theorem analyze_multiple_resumes_fst (barem : Option Json)
    (evalFn : String → String → JsonObj) (files : List (String × String))
    (cb : Bool) (hb : baremTruthy barem = true) :
    (analyze_multiple_resumes barem evalFn files cb).1
      = sort_results (files.map (fun pc => evalFn pc.1 pc.2)) := by
  unfold analyze_multiple_resumes
  rw [hb]
  simp [batchLoop_results]

/-- Record shape of the C4 ranking example. -/
def c4Record (name : String) (score : Rat) : JsonObj :=
  jobj [("candidate_name", .str name), ("score", .num score)]

/-- Evaluator for the C4 example: input scores 3, 9, 9, 1 for candidates
A, B, C, D in that processing order. -/
def c4Eval : String → String → JsonObj := fun _ name =>
  if name == "A" then c4Record "A" 3
  else if name == "B" then c4Record "B" 9
  else if name == "C" then c4Record "C" 9
  else c4Record "D" 1

/-- A (truthy) rubric for the C4 example. -/
def c4Rubric : JsonObj := jobj [("section", .str "criteria")]

/-- The C4 example batch input. -/
def c4Files : List (String × String) :=
  [("p1", "A"), ("p2", "B"), ("p3", "C"), ("p4", "D")]

/-- C4: the list a batch run returns is sorted by score descending
(adjacent-pairwise `scoreVal y ≤ scoreVal x`), and it is stable: for every
score value, the records carrying it appear in input (processing) order - the
filter of the output at any key equals the filter of the collected input.  On
the concrete example with input scores `[3, 9, 9, 1]` (candidates A, B, C, D)
the output order is `[B (9, first), C (9, second), A (3), D (1)]`.  The
`scoreIsNumeric` hypothesis marks the regime in which `scoreVal` is a faithful
embedding of the Python comparison key (Python raises `TypeError` on
non-numeric keys, which the claims do not reach). -/
theorem c4_batch_ranking_sorted_stable (barem : Option Json)
    (evalFn : String → String → JsonObj) (files : List (String × String)) (cb : Bool)
    (hb : baremTruthy barem = true)
    (_hnum : ∀ r ∈ files.map (fun pc => evalFn pc.1 pc.2), scoreIsNumeric r = true) :
    ((analyze_multiple_resumes barem evalFn files cb).1.Pairwise
        (fun x y => scoreVal y ≤ scoreVal x))
    ∧ (∀ q : Rat,
        (analyze_multiple_resumes barem evalFn files cb).1.filter
            (fun r => decide (scoreVal r = q))
          = (files.map (fun pc => evalFn pc.1 pc.2)).filter
              (fun r => decide (scoreVal r = q)))
    ∧ (analyze_multiple_resumes (some (Json.obj c4Rubric)) c4Eval c4Files false).1
        = [c4Record "B" 9, c4Record "C" 9, c4Record "A" 3, c4Record "D" 1] := by
  have h1 := analyze_multiple_resumes_fst barem evalFn files cb hb
  refine ⟨?_, ?_, by decide⟩
  · rw [h1]
    exact sort_results_pairwise _
  · intro q
    rw [h1]
    exact filter_sort_results _ q

/-- C4 witness: the sortedness and stability conclusions instantiated at the
concrete example batch. -/
theorem c4_batch_ranking_witness :
    ((analyze_multiple_resumes (some (Json.obj c4Rubric)) c4Eval c4Files false).1.Pairwise
        (fun x y => scoreVal y ≤ scoreVal x))
    ∧ (analyze_multiple_resumes (some (Json.obj c4Rubric)) c4Eval c4Files false).1.filter
          (fun r => decide (scoreVal r = 9))
        = (c4Files.map (fun pc => c4Eval pc.1 pc.2)).filter
            (fun r => decide (scoreVal r = 9)) :=
  ⟨(c4_batch_ranking_sorted_stable (some (Json.obj c4Rubric)) c4Eval c4Files false
      (by decide) (by decide)).1,
   (c4_batch_ranking_sorted_stable (some (Json.obj c4Rubric)) c4Eval c4Files false
      (by decide) (by decide)).2.1 9⟩

/-- Evaluator for the C9 trace facts. -/
def c9Eval : String → String → JsonObj := fun _ name =>
  jobj [("candidate_name", .str name), ("score", .num 0)]

/-- A (truthy) rubric for the C9 trace facts. -/
def c9Rubric : JsonObj := jobj [("k", .str "v")]

/-- C9 counterexample: in a batch of one candidate `A` with a callback
supplied, the very first event of the run is the `progress` callback
invocation, before the evaluation of `A`, which only happens second.  So the
callback is not invoked only after the evaluation step of the candidate has
completed. -/
theorem c9_callback_fires_before_evaluation :
    ((analyze_multiple_resumes (some (Json.obj c9Rubric)) c9Eval [("p", "A")] true).2
      = [BatchEvent.progress 0 1 "A", BatchEvent.evaluate "A", BatchEvent.cleanup "p"])
    ∧ ((analyze_multiple_resumes (some (Json.obj c9Rubric)) c9Eval [("p", "A")] true).2.head?
      = some (BatchEvent.progress 0 1 "A")) := by decide

/-- The event trace of the batch loop: per candidate, in order, the progress
callback, then the evaluation, then the cleanup. -/
theorem batchLoop_events (evalFn : String → String → JsonObj) (total : Nat)
    (files : List (String × String)) (idx : Nat) :
    (batchLoop evalFn true total idx files).2
      = (files.enumFrom idx).flatMap
          (fun p => [BatchEvent.progress p.1 total p.2.2,
                     BatchEvent.evaluate p.2.2, BatchEvent.cleanup p.2.1]) := by
  induction files generalizing idx with
  | nil => rfl
  | cons f rest ih =>
    cases f with
    | mk path name => simp [batchLoop, List.enumFrom, ih]

/-- C9 (amended): when a callback is supplied, the event trace of the run is, per
candidate in input order, the `progress (index, total, name)` invocation
immediately followed by the evaluation and cleanup of that candidate, so the
callback is invoked immediately before the evaluation of each candidate, never
after it. -/
theorem c9_progress_precedes_each_evaluation (barem : Option Json)
    (evalFn : String → String → JsonObj) (files : List (String × String))
    (hb : baremTruthy barem = true) :
    (analyze_multiple_resumes barem evalFn files true).2
      = files.enum.flatMap
          (fun p => [BatchEvent.progress p.1 files.length p.2.2,
                     BatchEvent.evaluate p.2.2, BatchEvent.cleanup p.2.1]) := by
  unfold analyze_multiple_resumes
  rw [hb]
  simp [batchLoop_events, List.enum]

/-- C9 witness: the amended trace shape at a concrete two-candidate batch. -/
theorem c9_progress_precedes_witness :
    (analyze_multiple_resumes (some (Json.obj c9Rubric)) c9Eval
        [("p", "A"), ("q", "B")] true).2
      = ([("p", "A"), ("q", "B")] : List (String × String)).enum.flatMap
          (fun p => [BatchEvent.progress p.1 2 p.2.2,
                     BatchEvent.evaluate p.2.2, BatchEvent.cleanup p.2.1]) :=
  c9_progress_precedes_each_evaluation (some (Json.obj c9Rubric)) c9Eval
    [("p", "A"), ("q", "B")] (by decide)

/-- The head reached by `dropWhile` fails the predicate. -/
theorem dropWhile_head_not {α : Type} {p : α → Bool} {l : List α} {c : α}
    {rest : List α} (h : l.dropWhile p = c :: rest) : p c = false := by
  induction l with
  | nil => simp [List.dropWhile] at h
  | cons a t ih =>
    rw [List.dropWhile_cons] at h
    by_cases hp : p a = true
    · rw [if_pos hp] at h
      exact ih h
    · rw [if_neg hp] at h
      injection h with h1 h2
      subst h1
      simp at hp
      exact hp

/-- What a successful `re.search(r"\{.*\}", t, re.DOTALL)` extracted: a span
running from the first opening brace of the text (nothing before it is an
opening brace) to the last closing brace (nothing after it is a closing
brace), starting with an opening and ending with a closing brace. -/
theorem greedyBraceSpan_some_decomp (t : String) (s : String)
    (hs : greedyBraceSpan t = some s) :
    ∃ a b : List Char, t.data = a ++ s.data ++ b ∧ lbrace ∉ a ∧ rbrace ∉ b
      ∧ s.data.head? = some lbrace ∧ s.data.getLast? = some rbrace := by
  unfold greedyBraceSpan at hs
  cases hd : t.data.dropWhile (fun ch => ch != lbrace) with
  | nil => simp only [hd] at hs; cases hs
  | cons c rest =>
    simp only [hd] at hs
    by_cases hcr : rest.contains rbrace = true
    case neg => rw [if_neg hcr] at hs; cases hs
    case pos =>
      rw [if_pos hcr] at hs
      injection hs with hs1
      have hsdata : s.data
          = c :: (rest.reverse.dropWhile (fun ch => ch != rbrace)).reverse := by
        rw [← hs1]
      have hc : c = lbrace := by
        have hpc := dropWhile_head_not hd
        simpa using hpc
      have hrest : rest
          = (rest.reverse.dropWhile (fun ch => ch != rbrace)).reverse
            ++ (rest.reverse.takeWhile (fun ch => ch != rbrace)).reverse := by
        conv_lhs => rw [← rest.reverse_reverse,
          ← List.takeWhile_append_dropWhile (p := fun ch => ch != rbrace)
            (l := rest.reverse),
          List.reverse_append]
      refine ⟨t.data.takeWhile (fun ch => ch != lbrace),
              (rest.reverse.takeWhile (fun ch => ch != rbrace)).reverse,
              ?_, ?_, ?_, ?_, ?_⟩
      · conv_lhs => rw [← List.takeWhile_append_dropWhile
          (p := fun ch => ch != lbrace) (l := t.data), hd, hrest]
        rw [hsdata]
        simp [List.cons_append, List.append_assoc]
      · intro hmem
        have := List.mem_takeWhile_imp hmem
        simp at this
      · intro hmem
        rw [List.mem_reverse] at hmem
        have := List.mem_takeWhile_imp hmem
        simp at this
      · rw [hsdata, hc]
        rfl
      · cases hcore : rest.reverse.dropWhile (fun ch => ch != rbrace) with
        | nil =>
          exfalso
          have hall := List.dropWhile_eq_nil_iff.mp hcore
          have hmem : rbrace ∈ rest.reverse := by
            rw [List.mem_reverse]
            simpa using hcr
          have := hall rbrace hmem
          simp at this
        | cons e es =>
          have he : e = rbrace := by
            have := dropWhile_head_not hcore
            simpa using this
          rw [hsdata, hcore, List.reverse_cons,
            show c :: (es.reverse ++ [e]) = (c :: es.reverse) ++ [e] from rfl,
            List.getLast?_concat, he]

/-- When the regex finds no match, the text has no opening brace with a
closing brace anywhere after it. -/
theorem greedyBraceSpan_none_no_pair (t : String)
    (hn : greedyBraceSpan t = none) (a m b : List Char) :
    t.data ≠ a ++ lbrace :: (m ++ rbrace :: b) := by
  intro heq
  unfold greedyBraceSpan at hn
  cases hd : t.data.dropWhile (fun ch => ch != lbrace) with
  | nil =>
    have hall := List.dropWhile_eq_nil_iff.mp hd
    have hmem : lbrace ∈ t.data := by
      rw [heq]
      exact List.mem_append.mpr (Or.inr (List.mem_cons_self _ _))
    have := hall lbrace hmem
    simp at this
  | cons c rest =>
    simp only [hd] at hn
    by_cases hcr : rest.contains rbrace = true
    · rw [if_pos hcr] at hn
      cases hn
    · apply hcr
      have hmem : rbrace ∈ rest := by
        have hdw : t.data.dropWhile (fun ch => ch != lbrace) = c :: rest := hd
        rw [heq, List.dropWhile_append] at hdw
        by_cases hae : (a.dropWhile (fun ch => ch != lbrace)).isEmpty = true
        · rw [if_pos hae, List.dropWhile_cons,
            if_neg (by simp : ¬((lbrace != lbrace) = true))] at hdw
          injection hdw with h1 h2
          rw [← h2]
          exact List.mem_append.mpr (Or.inr (List.mem_cons_self _ _))
        · rw [if_neg hae] at hdw
          cases hda : a.dropWhile (fun ch => ch != lbrace) with
          | nil => rw [hda] at hae; simp at hae
          | cons w ws =>
            rw [hda, List.cons_append] at hdw
            injection hdw with h1 h2
            rw [← h2]
            refine List.mem_append.mpr (Or.inr (List.mem_cons_of_mem _ ?_))
            exact List.mem_append.mpr (Or.inr (List.mem_cons_self _ _))
      simpa using hmem

/-- C6 (amended): the postprocessing extracts the span running from the first
opening brace to the last closing brace of the response text (the greedy
`\{.*\}` with DOTALL), not the first balanced span; when no such span exists
the whole call returns null at once (one attempt); and when JSON-parsing the
extracted span fails, the attempt raises with the decode error, counting as a
failed attempt subject to the error handling of the retry loop. -/
theorem c6_span_first_brace_to_last (t : String) :
    (∀ s, greedyBraceSpan t = some s →
      ∃ a b : List Char, t.data = a ++ s.data ++ b ∧ lbrace ∉ a ∧ rbrace ∉ b
        ∧ s.data.head? = some lbrace ∧ s.data.getLast? = some rbrace)
    ∧ (greedyBraceSpan t = none →
        ∀ a m b : List Char, t.data ≠ a ++ lbrace :: (m ++ rbrace :: b))
    ∧ (greedyBraceSpan t = none →
        generate_barem_from_gemini (fun _ => GenOutcome.ok (some t)) = (none, 1))
    ∧ (∀ s e, greedyBraceSpan t = some s → jsonLoads s = Except.error e →
        attemptStep (GenOutcome.ok (some t)) = Except.error (pyErrMsg e)) := by
  refine ⟨fun s hs => greedyBraceSpan_some_decomp t s hs,
          fun hn a m b => greedyBraceSpan_none_no_pair t hn a m b, ?_, ?_⟩
  · intro hn
    unfold generate_barem_from_gemini baremGo attemptStep
    simp [hn, Option.getD]
  · intro s e hs he
    unfold attemptStep
    simp [hs, he, Option.getD]

/-- C6 witness: at `"x \x7by\x7d z"` the extracted span is `"\x7by\x7d"`,
decomposing the text with no earlier opening and no later closing brace. -/
theorem c6_span_witness :
    ∃ a b : List Char,
      ("x \x7by\x7d z" : String).data = a ++ ("\x7by\x7d" : String).data ++ b
      ∧ lbrace ∉ a ∧ rbrace ∉ b
      ∧ ("\x7by\x7d" : String).data.head? = some lbrace
      ∧ ("\x7by\x7d" : String).data.getLast? = some rbrace :=
  (c6_span_first_brace_to_last "x \x7by\x7d z").1 "\x7by\x7d" (by decide)

/-- The C6 counterexample response text: two top-level JSON objects with junk
between them. -/
def c6Text : String := "\x7b\"a\": 1\x7d x \x7b\"b\": 2\x7d"

/-- The first balanced brace span of `c6Text`. -/
def c6FirstSpan : String := "\x7b\"a\": 1\x7d"

/-- C6 counterexample: on a response containing two objects, the first
balanced span parses fine - so under the claim the attempt would yield that
rubric, whereas the regex in the code takes everything from the first opening to the
last closing brace, `json.loads` fails on it (`Extra data`), the attempt
raises, and (the error not being overload-classified) the call ends with
null after the loop exhausts its three attempts. -/
theorem c6_greedy_not_first_balanced :
    firstBalancedSpan c6Text = some c6FirstSpan
    ∧ (jsonLoads c6FirstSpan).isOk = true
    ∧ greedyBraceSpan c6Text = some c6Text
    ∧ (jsonLoads c6Text).isOk = false
    ∧ attemptStep (GenOutcome.ok (some c6Text)) = Except.error "Extra data"
    ∧ generate_barem_from_gemini (fun _ => GenOutcome.ok (some c6Text))
        = (none, 3) := by decide

example : jsonLoads "\x7b\"a\": 1\x7d" = .ok (.obj (jobj [("a", .num 1)])) := by decide
example : jsonLoads "[1, 2]" = .ok (.arr (jarr [.num 1, .num 2])) := by decide
example : jsonLoads "  3.5 " = .ok (.num (mkRat 7 2)) := by decide
example : (jsonLoads "\x7b\"a\": 1\x7d x").isOk = false := by decide
example : jsonLoads "Overall Score: 999" = .error (.jsonDecodeError "Expecting value") := by decide
example : jsonLoads "[true, null, \"x\", -2e2]"
    = .ok (.arr (jarr [.bool true, .null, .str "x", .num (-200)])) := by decide
